import Mathlib

/-!
# cydOS calculator applet (`src/home_screen.cpp`)

A shallow embedding of the calculator of the cydOS home screen: the module-scoped
registers `calc_buffer`, `calc_current`, `calc_stored`, `calc_operator`,
`calc_new_input`, the click handler `calc_btn_event_handler` and the evaluator
`calc_perform_calculation`.

The C library pieces the calculator calls are modelled first:

* `double` is IEEE-754 binary64 with round-to-nearest, ties-to-even (`F64`);
* `atof` parses the decimal floating literal at the start of a string;
* `snprintf (..., "%.10g", x)` is the general format with ten significant digits.

C strings are lists of characters; every text the calculator stores is ASCII, so
`strlen` is `List.length`.
-/

namespace CydOS

/-! ## binary64 -/

/-- A `double`: a NaN with its sign bit, a signed infinity, or the finite number
`(-1)^neg * m * 2^e`. The operations below return finite values with `m` odd, or `m = 0`
and `e = 0`. -/
inductive F64 where
  | nan (neg : Bool) : F64
  | inf (neg : Bool) : F64
  | fin (neg : Bool) (m : Nat) (e : Int) : F64
deriving DecidableEq

namespace F64

/-- Floor of the binary logarithm (0 for 0), by repeated halving. -/
def log2Fuel : Nat → Nat → Nat
  | 0, _ => 0
  | fuel + 1, n => if 2 ≤ n then log2Fuel fuel (n / 2) + 1 else 0

/-- Floor of the binary logarithm of `n` (0 for 0). -/
def log2 (n : Nat) : Nat := log2Fuel n n

/-- Halve an even non-zero mantissa until it is odd. -/
def normLoop : Nat → Nat → Int → Nat × Int
  | 0, m, e => (m, e)
  | fuel + 1, m, e => if m % 2 = 0 ∧ m ≠ 0 then normLoop fuel (m / 2) (e + 1) else (m, e)

/-- The finite value `(-1)^neg * m * 2^e` in canonical form. -/
def norm (neg : Bool) (m : Nat) (e : Int) : F64 :=
  if m = 0 then fin neg 0 0
  else fin neg (normLoop (log2 m + 1) m e).1 (normLoop (log2 m + 1) m e).2

/-- The binary64 value nearest to the exact quotient `n / d` (`0 < d`), ties to even,
with sign `neg`: 53 significant bits, exponents of the last place from `-1074` to `971`,
overflow to infinity. -/
def round (neg : Bool) (n d : Nat) : F64 :=
  if n = 0 then fin neg 0 0
  else
    let c : Int := (log2 n : Int) - (log2 d : Int)
    let ge : Bool :=
      if c < 0 then decide (d ≤ n * 2 ^ c.natAbs) else decide (d * 2 ^ c.natAbs ≤ n)
    let l : Int := if ge then c else c - 1
    let e : Int := max (l - 52) (-1074)
    let N : Nat := if e < 0 then n * 2 ^ e.natAbs else n
    let D : Nat := if e < 0 then d else d * 2 ^ e.natAbs
    let q : Nat := N / D
    let r : Nat := N % D
    let q1 : Nat := if D < 2 * r ∨ (2 * r = D ∧ q % 2 = 1) then q + 1 else q
    if 971 < e ∨ (e = 971 ∧ 2 ^ 53 ≤ q1) then inf neg else norm neg q1 e

/-- The conversion `(double) n` of a natural number. -/
def ofNat (n : Nat) : F64 := round false n 1

/-- The integer a finite value with a non-negative exponent denotes. -/
def intValue : F64 → Option Int
  | fin s m e => if 0 ≤ e then some (if s then -((m * 2 ^ e.toNat : Nat) : Int)
      else ((m * 2 ^ e.toNat : Nat) : Int)) else none
  | _ => none

/-- The C test `x != 0`: false exactly for the two zeros (true for NaN). -/
def ne0 : F64 → Bool
  | fin _ m _ => decide (m ≠ 0)
  | _ => true

/-- The NaN an invalid operation (`inf - inf`, `inf * 0`, `inf / inf`, `0 / 0`) returns:
the default NaN of x86-64 SSE2 arithmetic, which has the sign bit set, so that `printf`
writes it `-nan`. -/
def defaultNaN : F64 := nan true

/-- Unary minus: the sign bit is flipped. -/
def neg : F64 → F64
  | nan s => nan (!s)
  | inf s => inf (!s)
  | fin s m e => fin (!s) m e

/-- The integer `(-1)^s * m`. -/
def signed (s : Bool) (m : Nat) : Int := if s then -(m : Int) else (m : Int)

/-- Addition `x + y`; a NaN operand is returned as it is, the first if both are. -/
def add : F64 → F64 → F64
  | nan s, _ => nan s
  | _, nan t => nan t
  | inf s, inf t => if s = t then inf s else defaultNaN
  | inf s, fin _ _ _ => inf s
  | fin _ _ _, inf t => inf t
  | fin s m e, fin t k f =>
    let e0 : Int := min e f
    let sum : Int := signed s (m * 2 ^ (e - e0).toNat) + signed t (k * 2 ^ (f - e0).toNat)
    if sum = 0 then fin (s && t) 0 0
    else if e0 < 0 then round (decide (sum < 0)) sum.natAbs (2 ^ e0.natAbs)
    else round (decide (sum < 0)) (sum.natAbs * 2 ^ e0.natAbs) 1

/-- Subtraction `x - y`: a NaN operand is returned as it is (its sign is not flipped);
otherwise the sum `x + (-y)`. -/
def sub : F64 → F64 → F64
  | nan s, _ => nan s
  | _, nan t => nan t
  | x, y => add x (neg y)

/-- Multiplication `x * y`; a NaN operand is returned as it is. -/
def mul : F64 → F64 → F64
  | nan s, _ => nan s
  | _, nan t => nan t
  | inf s, inf t => inf (xor s t)
  | inf s, fin t k _ => if k = 0 then defaultNaN else inf (xor s t)
  | fin s m _, inf t => if m = 0 then defaultNaN else inf (xor s t)
  | fin s m e, fin t k f =>
    if e + f < 0 then round (xor s t) (m * k) (2 ^ (e + f).natAbs)
    else round (xor s t) (m * k * 2 ^ (e + f).natAbs) 1

/-- Division `x / y`; a NaN operand is returned as it is. -/
def div : F64 → F64 → F64
  | nan s, _ => nan s
  | _, nan t => nan t
  | inf _, inf _ => defaultNaN
  | inf s, fin t _ _ => inf (xor s t)
  | fin s _ _, inf t => fin (xor s t) 0 0
  | fin s m e, fin t k f =>
    if k = 0 then (if m = 0 then defaultNaN else inf (xor s t))
    else if e - f < 0 then round (xor s t) m (k * 2 ^ (e - f).natAbs)
    else round (xor s t) (m * 2 ^ (e - f).natAbs) k

end F64

/-! ## `atof` -/

/-- The terminating NUL character. -/
def NUL : Char := Char.ofNat 0

/-- The test `isspace` of the C locale. -/
def isspace (c : Char) : Bool :=
  c = ' ' || c = '\t' || c = '\n' || c = Char.ofNat 11 || c = Char.ofNat 12 || c = '\r'

/-- The value of a decimal digit character. -/
def digitVal (c : Char) : Nat := c.toNat - 48

/-- The number a string of decimal digits writes. -/
def natOfDigits (ds : List Char) : Nat := ds.foldl (fun a c => 10 * a + digitVal c) 0

/-- The exponent part of a decimal floating literal: `e` or `E`, an optional sign and
digits; 0 when there is no such part. -/
def atofExponent : List Char → Int
  | [] => 0
  | c :: t =>
    if c = 'e' ∨ c = 'E' then
      match t with
      | [] => 0
      | d :: u =>
        if d = '-' then -((natOfDigits (u.takeWhile Char.isDigit) : Nat) : Int)
        else if d = '+' then ((natOfDigits (u.takeWhile Char.isDigit) : Nat) : Int)
        else ((natOfDigits (t.takeWhile Char.isDigit) : Nat) : Int)
    else 0

/-- The library function `atof`, that is `strtod (s, NULL)`: white space, an optional sign,
then `inf`, `nan` or the longest decimal floating literal; `0.0` when nothing converts.
The value is correctly rounded. Hexadecimal literals are not modelled (no calculator text
holds an `x`). -/
def atof (s : List Char) : F64 :=
  let s0 := s.dropWhile isspace
  let neg : Bool := decide (s0.head? = some '-')
  let s1 := if s0.head? = some '-' ∨ s0.head? = some '+' then s0.tail else s0
  if (s1.take 3).map Char.toLower = ['i', 'n', 'f'] then F64.inf neg
  else if (s1.take 3).map Char.toLower = ['n', 'a', 'n'] then F64.nan neg
  else
    let ip := s1.takeWhile Char.isDigit
    let s2 := s1.dropWhile Char.isDigit
    let fp := if s2.head? = some '.' then s2.tail.takeWhile Char.isDigit else []
    let s3 := if s2.head? = some '.' then s2.tail.dropWhile Char.isDigit else s2
    if ip = [] ∧ fp = [] then F64.fin false 0 0
    else
      let mant := natOfDigits (ip ++ fp)
      let dexp : Int := atofExponent s3 - (fp.length : Int)
      if dexp < 0 then F64.round neg mant (10 ^ dexp.natAbs)
      else F64.round neg (mant * 10 ^ dexp.natAbs) 1

/-! ## `snprintf` with `"%.10g"` -/

/-- The character of a decimal digit. -/
def digitChar : Nat → Char
  | 0 => '0'
  | 1 => '1'
  | 2 => '2'
  | 3 => '3'
  | 4 => '4'
  | 5 => '5'
  | 6 => '6'
  | 7 => '7'
  | 8 => '8'
  | _ => '9'

/-- The last `k` decimal digits of `n`, most significant first. -/
def digitsFixed : Nat → Nat → List Char
  | 0, _ => []
  | k + 1, n => digitsFixed k (n / 10) ++ [digitChar (n % 10)]

/-- Drop the zeros at the end of a digit string. -/
def stripZeros (ds : List Char) : List Char :=
  (ds.reverse.dropWhile (fun c => c = '0')).reverse

/-- Number of decimal digits of `n` (0 for 0). -/
def ndigits : Nat → Nat → Nat
  | 0, _ => 0
  | fuel + 1, n => if n = 0 then 0 else ndigits fuel (n / 10) + 1

/-- The least `j` from the given start with `d ≤ n * 10 ^ j`. -/
def negExpLoop : Nat → Nat → Nat → Nat → Nat
  | 0, _, _, j => j
  | fuel + 1, n, d, j => if d ≤ n * 10 ^ j then j else negExpLoop fuel n d (j + 1)

/-- Floor of the decimal logarithm of `n / d`, for `0 < n` and `0 < d`. -/
def decExp (n d : Nat) : Int :=
  if d ≤ n then (ndigits (n / d) (n / d) : Int) - 1 else -((negExpLoop d n d 1 : Nat) : Int)

/-- The exponent digits of the `e` style: at least two; three cover every binary64 value
(decimal exponents from `-324` to `308`). -/
def expDigits (a : Nat) : List Char :=
  if a < 100 then digitsFixed 2 a else digitsFixed 3 a

/-- The ten significant decimal digits of `n / d` (`0 < n`, `0 < d`), as a number from
`10 ^ 9` to `10 ^ 10 - 1`, correctly rounded with ties to even, and the decimal exponent of
the first of them. -/
def decimalRound (n d : Nat) : Nat × Int :=
  let x0 : Int := decExp n d
  let N : Nat := if 9 - x0 < 0 then n else n * 10 ^ (9 - x0).natAbs
  let D : Nat := if 9 - x0 < 0 then d * 10 ^ (9 - x0).natAbs else d
  let q0 : Nat := N / D
  let r : Nat := N % D
  let q1 : Nat := if D < 2 * r ∨ (2 * r = D ∧ q0 % 2 = 1) then q0 + 1 else q0
  if 10 ^ 10 ≤ q1 then (q1 / 10, x0 + 1) else (q1, x0)

/-- The `%g` choice of style for the ten digits `q` with decimal exponent `x`: the `e` style
when `x` is below `-4` or at least `10`, the `f` style otherwise; zeros at the end of the
fraction, and a point with no fraction, are removed. -/
def fmtStyle (q : Nat) (x : Int) : List Char :=
  if x < -4 ∨ 10 ≤ x then
    (digitsFixed 10 q).take 1 ++
      ((if stripZeros ((digitsFixed 10 q).drop 1) = [] then []
        else '.' :: stripZeros ((digitsFixed 10 q).drop 1)) ++
       ('e' :: (if x < 0 then '-' else '+') :: expDigits x.natAbs))
  else if 0 ≤ x then
    (digitsFixed 10 q).take (x.natAbs + 1) ++
      (if stripZeros ((digitsFixed 10 q).drop (x.natAbs + 1)) = [] then []
       else '.' :: stripZeros ((digitsFixed 10 q).drop (x.natAbs + 1)))
  else
    '0' :: '.' :: (List.replicate (x.natAbs - 1) '0' ++ stripZeros (digitsFixed 10 q))

/-- The text `printf ("%.10g", x)` writes: `nan` and `inf` with `-` in front when the sign
bit is set; otherwise ten significant digits, correctly rounded (ties to even), in the style
`%g` chooses. -/
def fmtG10 : F64 → List Char
  | F64.nan neg => (if neg then ['-'] else []) ++ ['n', 'a', 'n']
  | F64.inf neg => (if neg then ['-'] else []) ++ ['i', 'n', 'f']
  | F64.fin neg m e =>
    (if neg then ['-'] else []) ++
      (if m = 0 then ['0']
       else if e < 0 then
         fmtStyle (decimalRound m (2 ^ e.natAbs)).1 (decimalRound m (2 ^ e.natAbs)).2
       else
         fmtStyle (decimalRound (m * 2 ^ e.natAbs) 1).1 (decimalRound (m * 2 ^ e.natAbs) 1).2)

/-- The call `snprintf (buf, size, "%.10g", x)`: at most `size - 1` characters are stored. -/
def snprintf_g10 (size : Nat) (x : F64) : List Char := (fmtG10 x).take (size - 1)

/-! ## The calculator registers and handlers -/

/-- The calculator variables of `home_screen.cpp` (lines 41-46); `calc_display` stands for
the text of the label that `calc_display` points to. -/
structure Calc where
  calc_buffer : List Char
  calc_current : F64
  calc_stored : F64
  calc_operator : Char
  calc_new_input : Bool
  calc_display : List Char
deriving DecidableEq

/-- The test `strchr (s, c) != NULL`: `c` occurs in `s`, or is the terminator. -/
def strchr_found (s : List Char) (c : Char) : Bool := decide (c ∈ s) || decide (c = NUL)

/-- The loop `while (p > dot && *p == '0') *p-- = 0` of the trailing-zero removal:
`p` and `dot` are indices into `buf`; returns the text and the final `p`. -/
def trimLoop (dot : Nat) : Nat → List Char → List Char × Nat
  | 0, buf => (buf, 0)
  | p + 1, buf =>
    if dot < p + 1 ∧ buf.get? (p + 1) = some '0' then trimLoop dot p (buf.take (p + 1))
    else (buf, p + 1)

/-- The trailing-zero removal of `calc_perform_calculation` (lines 195-204). -/
def removeTrailingZeros (buf : List Char) : List Char :=
  if '.' ∈ buf then
    let dot := buf.indexOf '.'
    let r := trimLoop dot (buf.length - 1) buf
    if r.2 = dot then r.1.take dot else r.1
  else buf

/-- The function `calc_perform_calculation` (lines 169-205). -/
def calc_perform_calculation (s : Calc) : Calc :=
  let r : Option F64 :=
    if s.calc_operator = '+' then some (F64.add s.calc_stored s.calc_current)
    else if s.calc_operator = '-' then some (F64.sub s.calc_stored s.calc_current)
    else if s.calc_operator = '*' then some (F64.mul s.calc_stored s.calc_current)
    else if s.calc_operator = '/' then
      (if F64.ne0 s.calc_current then some (F64.div s.calc_stored s.calc_current) else none)
    else some s.calc_stored
  match r with
  | none => { s with calc_buffer := ['E', 'r', 'r', 'o', 'r'],
                     calc_display := ['E', 'r', 'r', 'o', 'r'] }
  | some v => { s with calc_stored := v, calc_current := v,
                       calc_buffer := removeTrailingZeros (snprintf_g10 32 v) }

/-- The function `calc_btn_event_handler` (lines 101-167); `btn_text` is the label of the
clicked button. -/
def calc_btn_event_handler (s : Calc) (btn_text : List Char) : Calc :=
  let s1 : Calc :=
    if btn_text = ['C'] then
      { s with calc_buffer := ['0'], calc_current := F64.fin false 0 0,
               calc_stored := F64.fin false 0 0, calc_operator := NUL, calc_new_input := true }
    else if btn_text = ['←'] then
      if 1 < s.calc_buffer.length then
        { s with calc_buffer := s.calc_buffer.take (s.calc_buffer.length - 1),
                 calc_current := atof (s.calc_buffer.take (s.calc_buffer.length - 1)) }
      else
        { s with calc_buffer := ['0'], calc_current := F64.fin false 0 0,
                 calc_new_input := true }
    else if btn_text = ['='] then
      let s2 : Calc :=
        if s.calc_operator ≠ NUL then { calc_perform_calculation s with calc_operator := NUL }
        else s
      { s2 with calc_new_input := true }
    else if strchr_found ['/', '*', '-', '+'] (btn_text.headD NUL) then
      let s2 : Calc :=
        if s.calc_operator ≠ NUL then calc_perform_calculation s
        else { s with calc_stored := s.calc_current }
      { s2 with calc_operator := btn_text.headD NUL, calc_new_input := true }
    else
      let s2 : Calc :=
        if s.calc_new_input then { s with calc_buffer := btn_text, calc_new_input := false }
        else if s.calc_buffer.length < 20 then
          if s.calc_buffer = ['0'] ∧ btn_text.headD NUL ≠ '.' then
            { s with calc_buffer := btn_text }
          else if btn_text.headD NUL = '.' then
            (if '.' ∈ s.calc_buffer then s
             else { s with calc_buffer := s.calc_buffer ++ btn_text })
          else { s with calc_buffer := s.calc_buffer ++ btn_text }
        else s
      { s2 with calc_current := atof s2.calc_buffer }
  { s1 with calc_display := s1.calc_buffer }

/-- The registers as `create_calculator_screen` leaves them (lines 235 and 320-325). -/
def create_calculator_screen : Calc :=
  { calc_buffer := ['0'], calc_current := F64.fin false 0 0, calc_stored := F64.fin false 0 0,
    calc_operator := NUL, calc_new_input := true, calc_display := ['0'] }

/-- The labels of the calculator buttons (the array `buttons`, lines 240-246). -/
def buttons : List (List Char) :=
  [['7'], ['8'], ['9'], ['/'],
   ['4'], ['5'], ['6'], ['*'],
   ['1'], ['2'], ['3'], ['-'],
   ['C'], ['0'], ['.'], ['+'],
   ['='], ['←']]

/-- The handler run on a sequence of clicks. -/
def run (s : Calc) (keys : List (List Char)) : Calc := keys.foldl calc_btn_event_handler s

/-- The states the calculator reaches from screen entry by clicks on its buttons. -/
inductive Reachable : Calc → Prop
  | entry : Reachable create_calculator_screen
  | click (s : Calc) (k : List Char) : Reachable s → k ∈ buttons →
      Reachable (calc_btn_event_handler s k)

/-- The digit characters of the keypad. -/
def digitKeys : List Char := ['0', '1', '2', '3', '4', '5', '6', '7', '8', '9']

/-- The operator characters, as the handler tests them (line 131). -/
def opKeys : List Char := ['/', '*', '-', '+']

/-- The text `Error` of line 184. -/
def errorText : List Char := ['E', 'r', 'r', 'o', 'r']

/-- The characters of the digit and decimal-point buttons. -/
def numKeys : List Char := digitKeys ++ ['.']

/-- The buffer after the digit and decimal-point branch of the handler (lines 143-162) for
the one-character label `c`. -/
def typeChar (new_input : Bool) (buf : List Char) (c : Char) : List Char :=
  if new_input then [c]
  else if buf.length < 20 then
    if buf = ['0'] ∧ c ≠ '.' then [c]
    else if c = '.' then (if '.' ∈ buf then buf else buf ++ [c])
    else buf ++ [c]
  else buf

/-! ## Predicates on the buffer text -/

/-- A text with a first character that is not the decimal point. -/
def HeadOk (l : List Char) : Prop := ∃ c t, l = c :: t ∧ c ≠ '.'

/-- A literal being typed: a non-empty text of at most 20 digit and point characters with
at most one point. -/
def Typed (b : List Char) : Prop :=
  b ≠ [] ∧ (∀ c ∈ b, c ∈ numKeys) ∧ b.count '.' ≤ 1 ∧ b.length ≤ 20

/-- The text an evaluation writes for the result `v` (lines 192-204). -/
def resultText (v : F64) : List Char := removeTrailingZeros (snprintf_g10 32 v)

/-- The evaluation run in the reachable state `s0` wrote the result `v`: an operator is
pending there, it is no division by zero, `v` is the sum, difference, product or quotient of
the two registers of `s0`, and `calc_perform_calculation` stored `v` in both registers and
the text of `v` in the buffer. -/
def Wrote (s0 : Calc) (v : F64) : Prop :=
  Reachable s0 ∧
  ((s0.calc_operator = '+' ∧ v = F64.add s0.calc_stored s0.calc_current) ∨
   (s0.calc_operator = '-' ∧ v = F64.sub s0.calc_stored s0.calc_current) ∨
   (s0.calc_operator = '*' ∧ v = F64.mul s0.calc_stored s0.calc_current) ∨
   (s0.calc_operator = '/' ∧ F64.ne0 s0.calc_current = true ∧
     v = F64.div s0.calc_stored s0.calc_current)) ∧
  calc_perform_calculation s0 =
    { s0 with calc_stored := v, calc_current := v, calc_buffer := resultText v }

/-- The shapes of the buffer: a literal being typed, or a non-empty prefix of `Error`, or a
non-empty prefix of the text an evaluation in a reachable state wrote for its result. -/
def Shape (b : List Char) : Prop :=
  Typed b ∨ (b ≠ [] ∧ b <+: errorText) ∨
  (b ≠ [] ∧ ∃ (s0 : Calc) (v : F64), Wrote s0 v ∧ b <+: resultText v)

/-- The invariant of the reachable states: the label shows the buffer, the buffer has one
of the three shapes, the pending operator is none or one of the four operator characters,
and while a number is being typed (new-input flag clear) the buffer is a typed literal and
the current value is its parse. -/
structure Inv (s : Calc) : Prop where
  display : s.calc_display = s.calc_buffer
  shape : Shape s.calc_buffer
  opok : s.calc_operator = NUL ∨ s.calc_operator ∈ opKeys
  typed : s.calc_new_input = false → s.calc_current = atof s.calc_buffer ∧ Typed s.calc_buffer

/-- The buffer the spec describes after typing the characters `keys` from screen entry: the
concatenation of the keypresses, except that a buffer that is exactly `0` is replaced by a
following digit instead of being extended by it. -/
def typedText (keys : List Char) : List Char :=
  keys.foldl (fun buf k => if buf = ['0'] ∧ k ≠ '.' then [k] else buf ++ [k]) []

/-- Clicks that end in a NaN: `9`, then `*` ten times (each of the last nine squares the
stored value, up to infinity), then `-` and `=`, which subtract infinity from infinity. -/
def nanKeys : List (List Char) := [['9']] ++ List.replicate 10 ['*'] ++ [['-'], ['=']]

/-- A text without its leading sign, if it has one. -/
def signless (b : List Char) : List Char :=
  if b.head? = some '-' ∨ b.head? = some '+' then b.tail else b

/-- An unsigned numeric literal: `inf`, `nan`, or digits with an optional point and
fraction (at least one digit in all) and an optional exponent part `e`, optional sign, at
least one digit. -/
def numericBody (m : List Char) : Bool :=
  let ip := m.takeWhile Char.isDigit
  let r1 := m.dropWhile Char.isDigit
  let fp := if r1.head? = some '.' then r1.tail.takeWhile Char.isDigit else []
  let r2 := if r1.head? = some '.' then r1.tail.dropWhile Char.isDigit else r1
  decide (m = ['i', 'n', 'f'] ∨ m = ['n', 'a', 'n']) ||
  (decide (ip ≠ [] ∨ fp ≠ []) &&
    (decide (r2 = []) ||
      (decide (r2.head? = some 'e' ∨ r2.head? = some 'E') &&
        decide (signless r2.tail ≠ []) && (signless r2.tail).all Char.isDigit)))

/-- A syntactically valid numeric literal, in the words of the spec: an optional sign and
an unsigned numeric literal. -/
def numericLiteral (b : List Char) : Bool := numericBody (signless b)

/-- A literal being typed that has at most one decimal point, in the words of the spec:
digits and points only, at most one point. -/
def typedLiteral (b : List Char) : Bool :=
  b.all (fun c => c.isDigit || decide (c = '.')) && decide (b.count '.' ≤ 1)

/-- The invariant the spec states for the buffer: a valid numeric literal, the literal
`Error`, or a literal being typed with at most one decimal point. -/
def specDisplayInvariant (b : List Char) : Bool :=
  numericLiteral b || decide (b = errorText) || typedLiteral b

/-! ## Known values of the library model -/

/-- The model on textbook values: 0.1 is `0x1.999999999999ap-4`, 0.1 + 0.2 is
`0x1.3333333333334p-2` and prints as `0.3`, 1 / 3 prints as `0.3333333333`, 2 ^ -15 prints
as `3.051757812e-05` (a tie, rounded to even), 1e21 parses and prints as `1e+21`; infinity
minus infinity, infinity times zero and infinity over infinity are the NaN with the sign bit
set, which prints as `-nan`. -/
theorem library_model_known_values :
    atof ['0', '.', '1'] = F64.fin false 3602879701896397 (-55) ∧
    F64.add (atof ['0', '.', '1']) (atof ['0', '.', '2'])
      = F64.fin false 1351079888211149 (-52) ∧
    fmtG10 (F64.add (atof ['0', '.', '1']) (atof ['0', '.', '2'])) = ['0', '.', '3'] ∧
    fmtG10 (F64.div (F64.ofNat 1) (F64.ofNat 3))
      = ['0', '.', '3', '3', '3', '3', '3', '3', '3', '3', '3', '3'] ∧
    fmtG10 (F64.fin false 1 (-15))
      = ['3', '.', '0', '5', '1', '7', '5', '7', '8', '1', '2', 'e', '-', '0', '5'] ∧
    fmtG10 (atof ['1', 'e', '2', '1']) = ['1', 'e', '+', '2', '1'] ∧
    atof ['E', 'r', 'r', 'o'] = F64.fin false 0 0 ∧
    atof ['-'] = F64.fin false 0 0 ∧
    F64.sub (F64.inf false) (F64.inf false) = F64.nan true ∧
    F64.mul (F64.inf false) (F64.fin false 0 0) = F64.nan true ∧
    F64.div (F64.inf true) (F64.inf false) = F64.nan true ∧
    F64.sub (F64.fin false 1 0) (F64.nan true) = F64.nan true ∧
    fmtG10 (F64.nan true) = ['-', 'n', 'a', 'n'] ∧
    fmtG10 (F64.nan false) = ['n', 'a', 'n'] ∧
    fmtG10 (F64.inf true) = ['-', 'i', 'n', 'f'] ∧
    fmtG10 (F64.fin true 0 0) = ['-', '0'] := by
  decide

/-! ## The handler, key by key -/

/-- The `C` branch (lines 104-111). -/
theorem handler_clear (s : Calc) :
    calc_btn_event_handler s ['C'] = create_calculator_screen := by
  simp [calc_btn_event_handler, create_calculator_screen]

/-- The backspace branch (lines 112-123). -/
theorem handler_backspace (s : Calc) :
    calc_btn_event_handler s ['←'] =
      if 1 < s.calc_buffer.length then
        { s with calc_buffer := s.calc_buffer.take (s.calc_buffer.length - 1),
                 calc_current := atof (s.calc_buffer.take (s.calc_buffer.length - 1)),
                 calc_display := s.calc_buffer.take (s.calc_buffer.length - 1) }
      else
        { s with calc_buffer := ['0'], calc_current := F64.fin false 0 0,
                 calc_new_input := true, calc_display := ['0'] } := by
  simp only [calc_btn_event_handler]
  split_ifs <;> simp_all

/-- The `=` branch (lines 124-130). -/
theorem handler_equals (s : Calc) :
    calc_btn_event_handler s ['='] =
      if s.calc_operator ≠ NUL then
        { calc_perform_calculation s with
            calc_operator := NUL, calc_new_input := true,
            calc_display := (calc_perform_calculation s).calc_buffer }
      else { s with calc_new_input := true, calc_display := s.calc_buffer } := by
  simp only [calc_btn_event_handler]
  split_ifs <;> simp_all

/-- The operator branch (lines 131-140). -/
theorem handler_operator (s : Calc) (c : Char) (hc : c ∈ opKeys) :
    calc_btn_event_handler s [c] =
      if s.calc_operator ≠ NUL then
        { calc_perform_calculation s with
            calc_operator := c, calc_new_input := true,
            calc_display := (calc_perform_calculation s).calc_buffer }
      else { s with calc_stored := s.calc_current, calc_operator := c,
                    calc_new_input := true, calc_display := s.calc_buffer } := by
  simp only [opKeys, List.mem_cons, List.mem_singleton, List.not_mem_nil, or_false] at hc
  rcases hc with rfl | rfl | rfl | rfl <;>
    (simp only [calc_btn_event_handler]; simp [strchr_found];
     by_cases h : s.calc_operator = NUL <;> simp [h])

/-- The digit and decimal-point branch (lines 141-164). -/
theorem handler_numeric (s : Calc) (c : Char) (hc : c ∈ numKeys) :
    calc_btn_event_handler s [c] =
      { s with calc_buffer := typeChar s.calc_new_input s.calc_buffer c,
               calc_current := atof (typeChar s.calc_new_input s.calc_buffer c),
               calc_new_input := false,
               calc_display := typeChar s.calc_new_input s.calc_buffer c } := by
  simp only [numKeys, digitKeys, List.cons_append, List.nil_append, List.mem_cons,
    List.mem_singleton, List.not_mem_nil, or_false] at hc
  rcases hc with rfl | rfl | rfl | rfl | rfl | rfl | rfl | rfl | rfl | rfl | rfl <;>
    (simp only [calc_btn_event_handler, typeChar]; simp [strchr_found, NUL];
     cases hn : s.calc_new_input
     · simp; split_ifs <;> simp_all
     · simp)

/-! ## The text of an evaluation is never empty -/

theorem headOk_cons {c : Char} (t : List Char) (h : c ≠ '.') : HeadOk (c :: t) :=
  ⟨c, t, rfl, h⟩

theorem headOk_append {l : List Char} (r : List Char) (h : HeadOk l) : HeadOk (l ++ r) := by
  obtain ⟨c, t, rfl, hc⟩ := h
  exact ⟨c, t ++ r, rfl, hc⟩

theorem headOk_take {l : List Char} (n : Nat) (h : HeadOk l) : HeadOk (l.take (n + 1)) := by
  obtain ⟨c, t, rfl, hc⟩ := h
  exact ⟨c, t.take n, rfl, hc⟩

theorem digitChar_ne_dot (d : Nat) : digitChar d ≠ '.' := by
  unfold digitChar
  split <;> decide

theorem headOk_digitsFixed (k n : Nat) : HeadOk (digitsFixed (k + 1) n) := by
  induction k generalizing n with
  | zero => exact ⟨digitChar (n % 10), [], by simp [digitsFixed], digitChar_ne_dot _⟩
  | succ k ih =>
    rw [digitsFixed]
    exact headOk_append _ (ih _)

theorem headOk_fmtStyle (q : Nat) (x : Int) : HeadOk (fmtStyle q x) := by
  have hzero : HeadOk ('0' :: '.' ::
      (List.replicate (x.natAbs - 1) '0' ++ stripZeros (digitsFixed 10 q))) :=
    ⟨'0', _, rfl, by decide⟩
  unfold fmtStyle
  split_ifs
  all_goals first
    | exact headOk_append _ (headOk_take _ (headOk_digitsFixed _ _))
    | exact hzero

/-- The `%.10g` text starts with a sign, a digit or a letter, never with the point. -/
theorem headOk_fmtG10 (x : F64) : HeadOk (fmtG10 x) := by
  cases x with
  | nan neg => cases neg <;> exact headOk_cons _ (by decide)
  | inf neg => cases neg <;> exact headOk_cons _ (by decide)
  | fin neg m e =>
    cases neg
    · simp only [fmtG10, Bool.false_eq_true, if_false, List.nil_append]
      split_ifs
      · exact headOk_cons _ (by decide)
      · exact headOk_fmtStyle _ _
      · exact headOk_fmtStyle _ _
    · exact headOk_cons _ (by decide)

/-- The removal loop keeps `p` at the last character and never passes the point. -/
theorem trimLoop_spec (dot : Nat) :
    ∀ (p : Nat) (buf : List Char), buf.length = p + 1 → dot ≤ p →
      (trimLoop dot p buf).1.length = (trimLoop dot p buf).2 + 1 ∧
      dot ≤ (trimLoop dot p buf).2 := by
  intro p
  induction p with
  | zero => intro buf hl hd; exact ⟨by simpa [trimLoop] using hl, by simpa [trimLoop] using hd⟩
  | succ p ih =>
    intro buf hl hd
    rw [trimLoop]
    split_ifs with h
    · exact ih _ (by simp [List.length_take]; omega) (by omega)
    · exact ⟨hl, hd⟩

/-- The trailing-zero removal keeps at least what stands before the point. -/
theorem removeTrailingZeros_ne_nil {buf : List Char} (h : HeadOk buf) :
    removeTrailingZeros buf ≠ [] := by
  obtain ⟨c, t, rfl, hc⟩ := h
  unfold removeTrailingZeros
  by_cases hmem : '.' ∈ c :: t
  · rw [if_pos hmem]
    have hlt : List.indexOf '.' (c :: t) < (c :: t).length := List.indexOf_lt_length.2 hmem
    have hpos : 0 < List.indexOf '.' (c :: t) := by
      rw [List.indexOf_cons_ne _ hc]; omega
    have hs := trimLoop_spec (List.indexOf '.' (c :: t)) ((c :: t).length - 1) (c :: t)
      (by simp) (by omega)
    intro hnil
    have hlen := congrArg List.length hnil
    dsimp only at hlen
    split_ifs at hlen
    · simp only [List.length_take, List.length_nil] at hlen
      omega
    · simp only [List.length_nil] at hlen
      omega
  · rw [if_neg hmem]
    simp

/-- The text of an evaluation is not empty. -/
theorem result_text_ne_nil (v : F64) : resultText v ≠ [] :=
  removeTrailingZeros_ne_nil (headOk_take 30 (headOk_fmtG10 v))

/-! ## The invariant of the reachable states -/

/-- The five kinds of button labels. -/
theorem button_cases {k : List Char} (hk : k ∈ buttons) :
    k = ['C'] ∨ k = ['←'] ∨ k = ['='] ∨ (∃ c ∈ opKeys, k = [c]) ∨
      (∃ c ∈ numKeys, k = [c]) := by
  simp only [buttons, List.mem_cons, List.mem_singleton, List.not_mem_nil, or_false] at hk
  rcases hk with rfl | rfl | rfl | rfl | rfl | rfl | rfl | rfl | rfl | rfl | rfl | rfl |
    rfl | rfl | rfl | rfl | rfl | rfl <;> simp [opKeys, numKeys, digitKeys]

theorem typed_single {c : Char} (hc : c ∈ numKeys) : Typed [c] := by
  refine ⟨by simp, ?_, ?_, by simp⟩
  · intro d hd
    rw [List.mem_singleton] at hd
    rw [hd]; exact hc
  · by_cases h : c = '.' <;> simp [List.count_cons, h]

theorem typed_dropLast {b : List Char} (h : Typed b) (hl : 1 < b.length) :
    Typed (b.take (b.length - 1)) := by
  obtain ⟨_, hmem, hcount, hlen⟩ := h
  refine ⟨?_, ?_, ?_, ?_⟩
  · intro hnil
    have := congrArg List.length hnil
    simp only [List.length_take, List.length_nil] at this
    omega
  · intro c hc
    exact hmem c (List.mem_of_mem_take hc)
  · exact le_trans (List.Sublist.count_le (List.take_sublist _ _) _) hcount
  · simp only [List.length_take]; omega

theorem shape_dropLast {b : List Char} (h : Shape b) (hl : 1 < b.length) :
    Shape (b.take (b.length - 1)) := by
  have hne : b.take (b.length - 1) ≠ [] := by
    intro hnil
    have := congrArg List.length hnil
    simp only [List.length_take, List.length_nil] at this
    omega
  rcases h with h | ⟨_, h⟩ | ⟨_, s0, v, hw, h⟩
  · exact Or.inl (typed_dropLast h hl)
  · exact Or.inr (Or.inl ⟨hne, (List.take_prefix _ _).trans h⟩)
  · exact Or.inr (Or.inr ⟨hne, s0, v, hw, (List.take_prefix _ _).trans h⟩)

theorem typed_typeChar {ni : Bool} {b : List Char} {c : Char} (hc : c ∈ numKeys)
    (h : ni = false → Typed b) : Typed (typeChar ni b c) := by
  unfold typeChar
  cases ni with
  | true => simpa using typed_single hc
  | false =>
    obtain ⟨hne, hmem, hcount, hlen⟩ := h rfl
    simp only [Bool.false_eq_true, if_false]
    have happ : ∀ d ∈ b ++ [c], d ∈ numKeys := by
      intro d hd
      rcases List.mem_append.1 hd with hd | hd
      · exact hmem d hd
      · rw [List.mem_singleton] at hd; rw [hd]; exact hc
    split_ifs with h1 h2 h3 h4
    · exact typed_single hc
    · exact ⟨hne, hmem, hcount, hlen⟩
    · subst h3
      refine ⟨by simp, happ, ?_, by simp; omega⟩
      rw [List.count_append, List.count_eq_zero_of_not_mem h4]
      simp
    · refine ⟨by simp, happ, ?_, by simp; omega⟩
      rw [List.count_append]
      have : List.count '.' [c] = 0 := List.count_eq_zero_of_not_mem (by simpa using Ne.symm h3)
      omega
    · exact ⟨hne, hmem, hcount, hlen⟩

/-- An evaluation with one of the four operators pending either returns early with `Error`
(division by zero) or writes the result of that operator on the two registers. -/
theorem perform_wrote {s : Calc} (hr : Reachable s) (hop : s.calc_operator ∈ opKeys) :
    calc_perform_calculation s =
        { s with calc_buffer := errorText, calc_display := errorText } ∨
    ∃ v : F64, Wrote s v := by
  simp only [opKeys, List.mem_cons, List.mem_singleton, List.not_mem_nil, or_false] at hop
  rcases hop with h | h | h | h
  · cases hz : F64.ne0 s.calc_current
    · exact Or.inl (by simp [calc_perform_calculation, h, hz, errorText])
    · exact Or.inr ⟨_, hr, Or.inr (Or.inr (Or.inr ⟨h, hz, rfl⟩)),
        by simp [calc_perform_calculation, h, hz, resultText]⟩
  · exact Or.inr ⟨_, hr, Or.inr (Or.inr (Or.inl ⟨h, rfl⟩)),
      by simp [calc_perform_calculation, h, resultText]⟩
  · exact Or.inr ⟨_, hr, Or.inr (Or.inl ⟨h, rfl⟩),
      by simp [calc_perform_calculation, h, resultText]⟩
  · exact Or.inr ⟨_, hr, Or.inl ⟨h, rfl⟩,
      by simp [calc_perform_calculation, h, resultText]⟩

theorem inv_entry : Inv create_calculator_screen :=
  ⟨rfl, Or.inl (typed_single (by decide)), Or.inl rfl,
    by intro hn; simp [create_calculator_screen] at hn⟩

theorem inv_perform_shape {s : Calc} (hr : Reachable s) (hop : s.calc_operator ∈ opKeys) :
    Shape (calc_perform_calculation s).calc_buffer := by
  rcases perform_wrote hr hop with h | ⟨v, hw⟩
  · rw [h]
    exact Or.inr (Or.inl ⟨by simp [errorText], List.prefix_refl _⟩)
  · rw [hw.2.2]
    exact Or.inr (Or.inr ⟨result_text_ne_nil v, s, v, hw, List.prefix_refl _⟩)

/-- Every click on a calculator button preserves the invariant. -/
theorem inv_step {s : Calc} {k : List Char} (hr : Reachable s) (h : Inv s)
    (hk : k ∈ buttons) : Inv (calc_btn_event_handler s k) := by
  have hops : s.calc_operator ≠ NUL → s.calc_operator ∈ opKeys :=
    fun hne => h.opok.resolve_left hne
  rcases button_cases hk with rfl | rfl | rfl | ⟨c, hc, rfl⟩ | ⟨c, hc, rfl⟩
  · rw [handler_clear]; exact inv_entry
  · rw [handler_backspace]
    split_ifs with hl
    · exact ⟨rfl, shape_dropLast h.shape hl, h.opok,
        fun hn => ⟨rfl, typed_dropLast (h.typed hn).2 hl⟩⟩
    · exact ⟨rfl, Or.inl (typed_single (by decide)), h.opok, by intro hn; simp at hn⟩
  · rw [handler_equals]
    split_ifs with hop
    · exact ⟨rfl, inv_perform_shape hr (hops hop), Or.inl rfl, by intro hn; simp at hn⟩
    · exact ⟨rfl, h.shape, h.opok, by intro hn; simp at hn⟩
  · rw [handler_operator s c hc]
    split_ifs with hop
    · exact ⟨rfl, inv_perform_shape hr (hops hop), Or.inr hc, by intro hn; simp at hn⟩
    · exact ⟨rfl, h.shape, Or.inr hc, by intro hn; simp at hn⟩
  · rw [handler_numeric s c hc]
    have ht : Typed (typeChar s.calc_new_input s.calc_buffer c) :=
      typed_typeChar hc (fun hn => (h.typed hn).2)
    exact ⟨rfl, Or.inl ht, h.opok, fun _ => ⟨rfl, ht⟩⟩

/-- The invariant holds in every reachable state. -/
theorem inv_of_reachable {s : Calc} (h : Reachable s) : Inv s := by
  induction h with
  | entry => exact inv_entry
  | click s k hr hk ih => exact inv_step hr ih hk

/-- Running clicks on calculator buttons stays within the reachable states. -/
theorem reachable_run {s : Calc} (h : Reachable s) :
    ∀ keys : List (List Char), (∀ k ∈ keys, k ∈ buttons) → Reachable (run s keys) := by
  intro keys
  induction keys generalizing s with
  | nil => intro _; exact h
  | cons k ks ih =>
    intro hk
    exact ih (Reachable.click s k h (hk k (List.mem_cons_self _ _)))
      (fun k' hk' => hk k' (List.mem_cons_of_mem _ hk'))

/-! ## The text of an evaluation is a prefix of a numeric literal -/

theorem isDigit_digitChar (d : Nat) : (digitChar d).isDigit = true := by
  unfold digitChar
  split <;> decide

theorem isDigit_digitsFixed (k : Nat) :
    ∀ (n : Nat), ∀ c ∈ digitsFixed k n, c.isDigit = true := by
  induction k with
  | zero => intro n c hc; simp [digitsFixed] at hc
  | succ k ih =>
    intro n c hc
    rw [digitsFixed] at hc
    rcases List.mem_append.1 hc with h | h
    · exact ih _ c h
    · rw [List.mem_singleton] at h
      rw [h]; exact isDigit_digitChar _

theorem stripZeros_subset (ds : List Char) : ∀ c ∈ stripZeros ds, c ∈ ds := by
  intro c hc
  unfold stripZeros at hc
  rw [List.mem_reverse] at hc
  exact List.mem_reverse.1 ((List.dropWhile_sublist _).subset hc)

theorem expDigits_spec (a : Nat) :
    expDigits a ≠ [] ∧ ∀ c ∈ expDigits a, c.isDigit = true := by
  unfold expDigits
  split_ifs
  · obtain ⟨c, t, h, _⟩ := headOk_digitsFixed 1 a
    exact ⟨by rw [h]; simp, isDigit_digitsFixed _ _⟩
  · obtain ⟨c, t, h, _⟩ := headOk_digitsFixed 2 a
    exact ⟨by rw [h]; simp, isDigit_digitsFixed _ _⟩

/-- Digits, then nothing or a point and digits, then nothing or an exponent part, make an
unsigned numeric literal. -/
theorem numericBody_shape (ip dotpart ex : List Char)
    (hip : ∀ c ∈ ip, c.isDigit = true) (hne : ip ≠ [])
    (hdot : dotpart = [] ∨ ∃ fp, dotpart = '.' :: fp ∧ ∀ c ∈ fp, c.isDigit = true)
    (hex : ex = [] ∨ ∃ sg ds, ex = 'e' :: sg :: ds ∧ (sg = '+' ∨ sg = '-') ∧ ds ≠ [] ∧
      ∀ c ∈ ds, c.isDigit = true) :
    numericBody (ip ++ (dotpart ++ ex)) = true := by
  have htw : ∀ l : List Char, (∀ c ∈ l, c.isDigit = true) → l.takeWhile Char.isDigit = l :=
    fun l hl => List.takeWhile_eq_self_iff.2 hl
  have hdw : ∀ l : List Char, (∀ c ∈ l, c.isDigit = true) → l.dropWhile Char.isDigit = [] :=
    fun l hl => List.dropWhile_eq_nil_iff.2 hl
  unfold numericBody
  rcases hdot with rfl | ⟨fp, rfl, hfp⟩ <;>
    rcases hex with rfl | ⟨sg, ds, rfl, hsg, hds, hdd⟩
  · simp [htw ip hip, hdw ip hip, hne]
  · rcases hsg with rfl | rfl <;>
      simp [List.takeWhile_append_of_pos hip, List.dropWhile_append_of_pos hip, hne, signless,
        hds] <;> exact Or.inr hdd
  · simp [List.takeWhile_append_of_pos hip, List.dropWhile_append_of_pos hip, hne,
      htw fp hfp, hdw fp hfp]
  · rcases hsg with rfl | rfl <;>
      simp [List.takeWhile_append_of_pos hip, List.dropWhile_append_of_pos hip, hne, signless,
        hds, List.takeWhile_append_of_pos hfp, List.dropWhile_append_of_pos hfp] <;>
      exact Or.inr hdd

theorem numericLiteral_signed (neg : Bool) (c : Char) (t : List Char) (hc : c.isDigit = true)
    (hb : numericBody (c :: t) = true) :
    numericLiteral ((if neg then ['-'] else []) ++ c :: t) = true := by
  have h1 : c ≠ '-' := by rintro rfl; exact absurd hc (by decide)
  have h2 : c ≠ '+' := by rintro rfl; exact absurd hc (by decide)
  cases neg <;> simp [numericLiteral, signless, h1, h2, hb]

/-- Both `%g` styles write an unsigned numeric literal that starts with a digit. -/
theorem numeric_fmtStyle (q : Nat) (x : Int) :
    ∃ c t, fmtStyle q x = c :: t ∧ c.isDigit = true ∧ numericBody (c :: t) = true := by
  obtain ⟨c, t, hds, _⟩ := headOk_digitsFixed 9 q
  have hall := isDigit_digitsFixed 10 q
  rw [hds] at hall
  have hc : c.isDigit = true := hall c (List.mem_cons_self _ _)
  have ht : ∀ d ∈ t, d.isDigit = true := fun d hd => hall d (List.mem_cons_of_mem _ hd)
  have hdotpart : ∀ fp : List Char, (∀ d ∈ fp, d.isDigit = true) →
      ((if fp = [] then [] else '.' :: fp) = [] ∨
        ∃ fp', (if fp = [] then [] else '.' :: fp) = '.' :: fp' ∧
          ∀ d ∈ fp', d.isDigit = true) := by
    intro fp hfp
    by_cases h : fp = []
    · exact Or.inl (by simp [h])
    · exact Or.inr ⟨fp, by simp [h], hfp⟩
  unfold fmtStyle
  rw [hds]
  by_cases h1 : x < -4 ∨ 10 ≤ x
  · rw [if_pos h1]
    refine ⟨c, _, rfl, hc, ?_⟩
    have hfrac : ∀ d ∈ stripZeros (List.drop 1 (c :: t)), d.isDigit = true :=
      fun d hd => hall d (List.mem_of_mem_drop (stripZeros_subset _ d hd))
    exact numericBody_shape [c] _ _ (by simpa using hc) (by simp) (hdotpart _ hfrac)
      (Or.inr ⟨_, _, rfl, by split_ifs <;> simp, (expDigits_spec _).1, (expDigits_spec _).2⟩)
  · rw [if_neg h1]
    by_cases h2 : 0 ≤ x
    · rw [if_pos h2]
      refine ⟨c, _, rfl, hc, ?_⟩
      have hfrac : ∀ d ∈ stripZeros (List.drop (x.natAbs + 1) (c :: t)), d.isDigit = true :=
        fun d hd => hall d (List.mem_of_mem_drop (stripZeros_subset _ d hd))
      have hip : ∀ d ∈ List.take (x.natAbs + 1) (c :: t), d.isDigit = true :=
        fun d hd => hall d (List.mem_of_mem_take hd)
      have := numericBody_shape (List.take (x.natAbs + 1) (c :: t)) _ [] hip (by simp)
        (hdotpart _ hfrac) (Or.inl rfl)
      simpa using this
    · rw [if_neg h2]
      refine ⟨'0', _, rfl, by decide, ?_⟩
      have hfp : ∀ d ∈ List.replicate (x.natAbs - 1) '0' ++ stripZeros (c :: t),
          d.isDigit = true := by
        intro d hd
        rcases List.mem_append.1 hd with h | h
        · rw [(List.mem_replicate.1 h).2]; decide
        · exact hall d (stripZeros_subset _ d h)
      have := numericBody_shape ['0'] ('.' :: (List.replicate (x.natAbs - 1) '0' ++
        stripZeros (c :: t))) [] (by decide) (by simp) (Or.inr ⟨_, rfl, hfp⟩) (Or.inl rfl)
      simpa using this

/-- The `%.10g` text of every value is a syntactically valid numeric literal. -/
theorem numericLiteral_fmtG10 (v : F64) : numericLiteral (fmtG10 v) = true := by
  cases v with
  | nan neg => cases neg <;> decide
  | inf neg => cases neg <;> decide
  | fin neg m e =>
    simp only [fmtG10]
    by_cases hm : m = 0
    · rw [if_pos hm]
      exact numericLiteral_signed neg '0' [] (by decide) (by decide)
    · rw [if_neg hm]
      by_cases he : e < 0
      · rw [if_pos he]
        obtain ⟨c, t, h, hc, hb⟩ := numeric_fmtStyle (decimalRound m (2 ^ e.natAbs)).1
          (decimalRound m (2 ^ e.natAbs)).2
        rw [h]; exact numericLiteral_signed neg c t hc hb
      · rw [if_neg he]
        obtain ⟨c, t, h, hc, hb⟩ := numeric_fmtStyle (decimalRound (m * 2 ^ e.natAbs) 1).1
          (decimalRound (m * 2 ^ e.natAbs) 1).2
        rw [h]; exact numericLiteral_signed neg c t hc hb

theorem trimLoop_isPrefix (dot : Nat) :
    ∀ (p : Nat) (buf : List Char), (trimLoop dot p buf).1 <+: buf := by
  intro p
  induction p with
  | zero => intro buf; exact List.prefix_refl _
  | succ p ih =>
    intro buf
    rw [trimLoop]
    split_ifs
    · exact (ih _).trans (List.take_prefix _ _)
    · exact List.prefix_refl _

/-- The trailing-zero removal only cuts characters off the end. -/
theorem removeTrailingZeros_isPrefix (buf : List Char) : removeTrailingZeros buf <+: buf := by
  unfold removeTrailingZeros
  by_cases hmem : '.' ∈ buf
  · rw [if_pos hmem]
    dsimp only
    split_ifs
    · exact (List.take_prefix _ _).trans (trimLoop_isPrefix _ _ _)
    · exact trimLoop_isPrefix _ _ _
  · rw [if_neg hmem]

/-- The text of an evaluation is a prefix of the `%.10g` text of its result. -/
theorem resultText_isPrefix (v : F64) : resultText v <+: fmtG10 v :=
  (removeTrailingZeros_isPrefix _).trans (List.take_prefix _ _)

/-! ## Clear, division by zero, chaining, single-digit sums -/

/-- C5: from every state, handling `C` yields exactly the state that entering the
calculator screen produces: buffer `0`, both registers 0, no pending operator, new-input
flag set. -/
theorem C5_clear_resets_everything (s : Calc) :
    calc_btn_event_handler s ['C'] = create_calculator_screen ∧
    create_calculator_screen.calc_buffer = ['0'] ∧
    create_calculator_screen.calc_current = F64.ofNat 0 ∧
    create_calculator_screen.calc_stored = F64.ofNat 0 ∧
    create_calculator_screen.calc_operator = NUL ∧
    create_calculator_screen.calc_new_input = true :=
  ⟨handler_clear s, rfl, by decide, by decide, rfl, rfl⟩

/-- C2: when the pending operator is `/` and the current value compares equal to 0,
handling `=` writes `Error` into the buffer and leaves both registers as they were; the keys
`1 0 / 0 =` from screen entry end with buffer `Error`, stored value 10, current value 0. -/
theorem C2_divide_by_zero_shows_error :
    (∀ s : Calc, s.calc_operator = '/' → F64.ne0 s.calc_current = false →
      (calc_btn_event_handler s ['=']).calc_buffer = errorText ∧
      (calc_btn_event_handler s ['=']).calc_stored = s.calc_stored ∧
      (calc_btn_event_handler s ['=']).calc_current = s.calc_current) ∧
    (run create_calculator_screen [['1'], ['0'], ['/'], ['0'], ['=']]).calc_buffer
      = errorText ∧
    (run create_calculator_screen [['1'], ['0'], ['/'], ['0'], ['=']]).calc_stored
      = F64.ofNat 10 ∧
    (run create_calculator_screen [['1'], ['0'], ['/'], ['0'], ['=']]).calc_stored.intValue
      = some 10 ∧
    (run create_calculator_screen [['1'], ['0'], ['/'], ['0'], ['=']]).calc_current
      = F64.ofNat 0 ∧
    (run create_calculator_screen [['1'], ['0'], ['/'], ['0'], ['=']]).calc_current.intValue
      = some 0 := by
  refine ⟨?_, by decide, by decide, by decide, by decide, by decide⟩
  intro s hop hz
  have hnul : s.calc_operator ≠ NUL := by rw [hop]; decide
  rw [handler_equals, if_pos hnul]
  simp [calc_perform_calculation, hop, hz, errorText]

/-- The general part of C2 at the state the keys `1 0 / 0` reach. -/
theorem C2_divide_by_zero_witness :
    (calc_btn_event_handler (run create_calculator_screen [['1'], ['0'], ['/'], ['0']])
        ['=']).calc_buffer = errorText ∧
    (calc_btn_event_handler (run create_calculator_screen [['1'], ['0'], ['/'], ['0']])
        ['=']).calc_stored
      = (run create_calculator_screen [['1'], ['0'], ['/'], ['0']]).calc_stored ∧
    (calc_btn_event_handler (run create_calculator_screen [['1'], ['0'], ['/'], ['0']])
        ['=']).calc_current
      = (run create_calculator_screen [['1'], ['0'], ['/'], ['0']]).calc_current :=
  C2_divide_by_zero_shows_error.1 (run create_calculator_screen [['1'], ['0'], ['/'], ['0']])
    (by decide) (by decide)

set_option maxHeartbeats 4000000 in
/-- C3: an operator key pressed while an operator is pending (`+`, `-`, `*`, or `/` with a
current value that is not 0) puts `stored op current` into both registers, makes the pressed
key the pending operator and sets the new-input flag; with no operator pending it copies the
current value into the stored value. After `4 + 2 *` the stored value is 6; after a further
`3` it is still 6, with current value 3 and pending operator `*`. The four operations are
pinned on all pairs of digits `a`, `b`: after `a + b *`, `a - b *`, `a * b *` the stored
value is the integer `a + b`, `a - b`, `a * b`, and after `a / b *` with `b` a non-zero
divisor of `a` it is `a / b`; and on `9 - 4` (5), `4 - 9` (-5), `8 / 2` (4), `1 / 4`
(`2 ^ (-2)`) and `1 / 3` (`6004799503160661 * 2 ^ (-54)`). -/
theorem C3_operators_chain_left_to_right :
    (∀ (s : Calc) (c : Char), c ∈ opKeys →
      (s.calc_operator = '+' →
        (calc_btn_event_handler s [c]).calc_stored = F64.add s.calc_stored s.calc_current ∧
        (calc_btn_event_handler s [c]).calc_current = F64.add s.calc_stored s.calc_current ∧
        (calc_btn_event_handler s [c]).calc_operator = c ∧
        (calc_btn_event_handler s [c]).calc_new_input = true) ∧
      (s.calc_operator = '-' →
        (calc_btn_event_handler s [c]).calc_stored = F64.sub s.calc_stored s.calc_current ∧
        (calc_btn_event_handler s [c]).calc_current = F64.sub s.calc_stored s.calc_current ∧
        (calc_btn_event_handler s [c]).calc_operator = c ∧
        (calc_btn_event_handler s [c]).calc_new_input = true) ∧
      (s.calc_operator = '*' →
        (calc_btn_event_handler s [c]).calc_stored = F64.mul s.calc_stored s.calc_current ∧
        (calc_btn_event_handler s [c]).calc_current = F64.mul s.calc_stored s.calc_current ∧
        (calc_btn_event_handler s [c]).calc_operator = c ∧
        (calc_btn_event_handler s [c]).calc_new_input = true) ∧
      (s.calc_operator = '/' → F64.ne0 s.calc_current = true →
        (calc_btn_event_handler s [c]).calc_stored = F64.div s.calc_stored s.calc_current ∧
        (calc_btn_event_handler s [c]).calc_current = F64.div s.calc_stored s.calc_current ∧
        (calc_btn_event_handler s [c]).calc_operator = c ∧
        (calc_btn_event_handler s [c]).calc_new_input = true) ∧
      (s.calc_operator = NUL →
        (calc_btn_event_handler s [c]).calc_stored = s.calc_current ∧
        (calc_btn_event_handler s [c]).calc_current = s.calc_current ∧
        (calc_btn_event_handler s [c]).calc_operator = c ∧
        (calc_btn_event_handler s [c]).calc_new_input = true)) ∧
    (run create_calculator_screen [['4'], ['+'], ['2'], ['*']]).calc_stored = F64.ofNat 6 ∧
    (run create_calculator_screen [['4'], ['+'], ['2'], ['*']]).calc_stored.intValue
      = some 6 ∧
    (run create_calculator_screen [['4'], ['+'], ['2'], ['*'], ['3']]).calc_stored
      = F64.ofNat 6 ∧
    (run create_calculator_screen [['4'], ['+'], ['2'], ['*'], ['3']]).calc_stored.intValue
      = some 6 ∧
    (run create_calculator_screen [['4'], ['+'], ['2'], ['*'], ['3']]).calc_current
      = F64.ofNat 3 ∧
    (run create_calculator_screen [['4'], ['+'], ['2'], ['*'], ['3']]).calc_current.intValue
      = some 3 ∧
    (run create_calculator_screen [['4'], ['+'], ['2'], ['*'], ['3']]).calc_operator
      = '*' ∧
    (∀ a b : Fin 10,
      (run create_calculator_screen
          [[digitChar a], ['+'], [digitChar b], ['*']]).calc_stored.intValue
        = some (((a : Nat) : Int) + ((b : Nat) : Int)) ∧
      (run create_calculator_screen
          [[digitChar a], ['-'], [digitChar b], ['*']]).calc_stored.intValue
        = some (((a : Nat) : Int) - ((b : Nat) : Int)) ∧
      (run create_calculator_screen
          [[digitChar a], ['*'], [digitChar b], ['*']]).calc_stored.intValue
        = some (((a : Nat) : Int) * ((b : Nat) : Int)) ∧
      ((b : Nat) ≠ 0 → (a : Nat) % (b : Nat) = 0 →
        (run create_calculator_screen
            [[digitChar a], ['/'], [digitChar b], ['*']]).calc_stored.intValue
          = some ((((a : Nat) / (b : Nat) : Nat)) : Int))) ∧
    (run create_calculator_screen [['9'], ['-'], ['4'], ['*']]).calc_stored
      = F64.fin false 5 0 ∧
    (run create_calculator_screen [['9'], ['-'], ['4'], ['*']]).calc_current
      = F64.fin false 5 0 ∧
    (run create_calculator_screen [['4'], ['-'], ['9'], ['*']]).calc_stored
      = F64.fin true 5 0 ∧
    (run create_calculator_screen [['8'], ['/'], ['2'], ['*']]).calc_stored
      = F64.fin false 1 2 ∧
    (run create_calculator_screen [['8'], ['/'], ['2'], ['*']]).calc_current
      = F64.fin false 1 2 ∧
    (run create_calculator_screen [['1'], ['/'], ['4'], ['*']]).calc_stored
      = F64.fin false 1 (-2) ∧
    (run create_calculator_screen [['1'], ['/'], ['3'], ['*']]).calc_stored
      = F64.fin false 6004799503160661 (-54) := by
  refine ⟨?_, by decide⟩
  intro s c hc
  rw [handler_operator s c hc]
  refine ⟨?_, ?_, ?_, ?_, ?_⟩
  · intro hop
    have hnul : s.calc_operator ≠ NUL := by rw [hop]; decide
    rw [if_pos hnul]
    simp [calc_perform_calculation, hop]
  · intro hop
    have hnul : s.calc_operator ≠ NUL := by rw [hop]; decide
    rw [if_pos hnul]
    simp [calc_perform_calculation, hop]
  · intro hop
    have hnul : s.calc_operator ≠ NUL := by rw [hop]; decide
    rw [if_pos hnul]
    simp [calc_perform_calculation, hop]
  · intro hop hne
    have hnul : s.calc_operator ≠ NUL := by rw [hop]; decide
    rw [if_pos hnul]
    simp [calc_perform_calculation, hop, hne]
  · intro hop
    simp [hop]

/-- The five cases of C3 for the key `*`: at the states the keys `4 + 2`, `9 - 4`, `4 * 2`
and `8 / 2` reach the stored value becomes 6, 5, 8 and 4, and at the state the key `4`
reaches (no operator pending) it becomes 4. -/
theorem C3_operators_chain_witness :
    (calc_btn_event_handler (run create_calculator_screen [['4'], ['+'], ['2']])
        ['*']).calc_stored = F64.fin false 3 1 ∧
    (calc_btn_event_handler (run create_calculator_screen [['9'], ['-'], ['4']])
        ['*']).calc_stored = F64.fin false 5 0 ∧
    (calc_btn_event_handler (run create_calculator_screen [['4'], ['*'], ['2']])
        ['*']).calc_stored = F64.fin false 1 3 ∧
    (calc_btn_event_handler (run create_calculator_screen [['8'], ['/'], ['2']])
        ['*']).calc_stored = F64.fin false 1 2 ∧
    (calc_btn_event_handler (run create_calculator_screen [['4']])
        ['*']).calc_stored = F64.fin false 1 2 :=
  ⟨((C3_operators_chain_left_to_right.1
      (run create_calculator_screen [['4'], ['+'], ['2']]) '*' (by decide)).1
      (by decide)).1.trans (by decide),
   ((C3_operators_chain_left_to_right.1
      (run create_calculator_screen [['9'], ['-'], ['4']]) '*' (by decide)).2.1
      (by decide)).1.trans (by decide),
   ((C3_operators_chain_left_to_right.1
      (run create_calculator_screen [['4'], ['*'], ['2']]) '*' (by decide)).2.2.1
      (by decide)).1.trans (by decide),
   ((C3_operators_chain_left_to_right.1
      (run create_calculator_screen [['8'], ['/'], ['2']]) '*' (by decide)).2.2.2.1
      (by decide) (by decide)).1.trans (by decide),
   ((C3_operators_chain_left_to_right.1
      (run create_calculator_screen [['4']]) '*' (by decide)).2.2.2.2
      (by decide)).1.trans (by decide)⟩

/-- The keys `a + b =` for all hundred pairs of digits, by evaluation. -/
theorem single_digit_sum_fin : ∀ a b : Fin 10,
    (run create_calculator_screen
        [[digitChar a], ['+'], [digitChar b], ['=']]).calc_buffer = Nat.toDigits 10 (a + b) ∧
    (run create_calculator_screen
        [[digitChar a], ['+'], [digitChar b], ['=']]).calc_stored = F64.ofNat (a + b) ∧
    (run create_calculator_screen
        [[digitChar a], ['+'], [digitChar b], ['=']]).calc_current = F64.ofNat (a + b) ∧
    (run create_calculator_screen
        [[digitChar a], ['+'], [digitChar b], ['=']]).calc_stored.intValue
      = some (((a : Nat) + (b : Nat) : Nat) : Int) ∧
    (run create_calculator_screen
        [[digitChar a], ['+'], [digitChar b], ['=']]).calc_current.intValue
      = some (((a : Nat) + (b : Nat) : Nat) : Int) ∧
    (run create_calculator_screen
        [[digitChar a], ['+'], [digitChar b], ['=']]).calc_operator = NUL ∧
    (run create_calculator_screen
        [[digitChar a], ['+'], [digitChar b], ['=']]).calc_new_input = true := by
  decide

/-- C4: for single digits `a` and `b`, the keys `a + b =` from screen entry leave the buffer
equal to the decimal numeral of `a + b` (no decimal point, no zeros added), both registers
equal to `a + b`, no pending operator and the new-input flag set. -/
theorem C4_single_digit_addition (a b : Nat) (ha : a < 10) (hb : b < 10) :
    (run create_calculator_screen
        [[digitChar a], ['+'], [digitChar b], ['=']]).calc_buffer = Nat.toDigits 10 (a + b) ∧
    '.' ∉ (run create_calculator_screen
        [[digitChar a], ['+'], [digitChar b], ['=']]).calc_buffer ∧
    (run create_calculator_screen
        [[digitChar a], ['+'], [digitChar b], ['=']]).calc_stored = F64.ofNat (a + b) ∧
    (run create_calculator_screen
        [[digitChar a], ['+'], [digitChar b], ['=']]).calc_current = F64.ofNat (a + b) ∧
    (run create_calculator_screen
        [[digitChar a], ['+'], [digitChar b], ['=']]).calc_stored.intValue
      = some ((a + b : Nat) : Int) ∧
    (run create_calculator_screen
        [[digitChar a], ['+'], [digitChar b], ['=']]).calc_current.intValue
      = some ((a + b : Nat) : Int) ∧
    (run create_calculator_screen
        [[digitChar a], ['+'], [digitChar b], ['=']]).calc_operator = NUL ∧
    (run create_calculator_screen
        [[digitChar a], ['+'], [digitChar b], ['=']]).calc_new_input = true := by
  have h := single_digit_sum_fin ⟨a, ha⟩ ⟨b, hb⟩
  refine ⟨h.1, ?_, h.2⟩
  rw [h.1]
  have hd : ∀ n : Fin 19, '.' ∉ Nat.toDigits 10 n := by decide
  exact hd ⟨a + b, by omega⟩

/-- C4 at `5 + 3 =`: the buffer is `8` and the stored value is 8, that is `1 * 2 ^ 3`. -/
theorem C4_five_plus_three_witness :
    (run create_calculator_screen [['5'], ['+'], ['3'], ['=']]).calc_buffer = ['8'] ∧
    (run create_calculator_screen [['5'], ['+'], ['3'], ['=']]).calc_stored
      = F64.fin false 1 3 :=
  ⟨(C4_single_digit_addition 5 3 (by decide) (by decide)).1,
   (C4_single_digit_addition 5 3 (by decide) (by decide)).2.2.1.trans (by decide)⟩

/-! ## After a division by zero -/

/-- C9, refuted as stated: after `1 / 0 =` the buffer is `Error` and the new-input flag
is set, so the key `5` leaves the buffer `5`, not `Error5`; likewise after the chained
operator key in `1 / 0 +`. -/
theorem C9_digit_does_not_append_to_error :
    (run create_calculator_screen [['1'], ['/'], ['0'], ['=']]).calc_buffer = errorText ∧
    (run create_calculator_screen [['1'], ['/'], ['0'], ['=']]).calc_new_input = true ∧
    (run create_calculator_screen [['1'], ['/'], ['0'], ['='], ['5']]).calc_buffer = ['5'] ∧
    (run create_calculator_screen [['1'], ['/'], ['0'], ['='], ['5']]).calc_buffer
      ≠ errorText ++ ['5'] ∧
    (run create_calculator_screen [['1'], ['/'], ['0'], ['+']]).calc_buffer = errorText ∧
    (run create_calculator_screen [['1'], ['/'], ['0'], ['+']]).calc_new_input = true ∧
    (run create_calculator_screen [['1'], ['/'], ['0'], ['+'], ['5']]).calc_buffer = ['5'] ∧
    (run create_calculator_screen [['1'], ['/'], ['0'], ['+'], ['5']]).calc_buffer
      ≠ errorText ++ ['5'] := by
  decide

/-- C9, amended: when the pending operator is `/` and the current value compares equal
to 0, both `=` and a chained operator key write `Error` into the buffer, leave the two
registers as they were and set the new-input flag; the next digit or `.` key then replaces
the `Error` text with its own character. -/
theorem C9_next_digit_replaces_error (s : Calc) (c : Char)
    (hop : s.calc_operator = '/') (hz : F64.ne0 s.calc_current = false) (hc : c ∈ numKeys) :
    ((calc_btn_event_handler s ['=']).calc_buffer = errorText ∧
     (calc_btn_event_handler s ['=']).calc_new_input = true ∧
     (calc_btn_event_handler s ['=']).calc_stored = s.calc_stored ∧
     (calc_btn_event_handler s ['=']).calc_current = s.calc_current ∧
     (calc_btn_event_handler (calc_btn_event_handler s ['=']) [c]).calc_buffer = [c]) ∧
    (∀ o ∈ opKeys,
     (calc_btn_event_handler s [o]).calc_buffer = errorText ∧
     (calc_btn_event_handler s [o]).calc_new_input = true ∧
     (calc_btn_event_handler s [o]).calc_stored = s.calc_stored ∧
     (calc_btn_event_handler s [o]).calc_current = s.calc_current ∧
     (calc_btn_event_handler (calc_btn_event_handler s [o]) [c]).calc_buffer = [c]) := by
  have hnul : s.calc_operator ≠ NUL := by rw [hop]; decide
  have hp : calc_perform_calculation s =
      { s with calc_buffer := errorText, calc_display := errorText } := by
    simp [calc_perform_calculation, hop, hz, errorText]
  refine ⟨?_, ?_⟩
  · rw [handler_numeric _ c hc, handler_equals, if_pos hnul, hp]
    simp [typeChar]
  · intro o ho
    rw [handler_numeric _ c hc, handler_operator s o ho, if_pos hnul, hp]
    simp [typeChar]

/-- The amended C9 at the state the keys `1 / 0` reach and the digit `5`. -/
theorem C9_next_digit_replaces_error_witness :
    (calc_btn_event_handler (calc_btn_event_handler
        (run create_calculator_screen [['1'], ['/'], ['0']]) ['=']) ['5']).calc_buffer = ['5'] ∧
    (calc_btn_event_handler (calc_btn_event_handler
        (run create_calculator_screen [['1'], ['/'], ['0']]) ['*']) ['5']).calc_buffer = ['5'] :=
  have h := C9_next_digit_replaces_error (run create_calculator_screen [['1'], ['/'], ['0']])
    '5' (by decide) (by decide) (by decide)
  ⟨h.1.2.2.2.2, (h.2 '*' (by decide)).2.2.2.2⟩

/-! ## Trailing-zero removal on the exponent style -/

/-- C10 fails at the product 150000 * 100000 = 15000000000: the formatted text is
`1.5e+10`, the trailing-zero removal turns it into `1.5e+1`, which parses to 15 while the
untrimmed text parses to 15000000000; the keys `150000*100000=` leave `1.5e+1` in the buffer
with 15000000000 in the stored value. -/
theorem C10_trimming_eats_exponent_zero :
    F64.mul (F64.ofNat 150000) (F64.ofNat 100000) = F64.ofNat 15000000000 ∧
    snprintf_g10 32 (F64.ofNat 15000000000) = ['1', '.', '5', 'e', '+', '1', '0'] ∧
    removeTrailingZeros ['1', '.', '5', 'e', '+', '1', '0'] = ['1', '.', '5', 'e', '+', '1'] ∧
    atof ['1', '.', '5', 'e', '+', '1', '0'] = F64.ofNat 15000000000 ∧
    atof ['1', '.', '5', 'e', '+', '1'] = F64.ofNat 15 ∧
    (atof ['1', '.', '5', 'e', '+', '1', '0']).intValue = some 15000000000 ∧
    (atof ['1', '.', '5', 'e', '+', '1']).intValue = some 15 ∧
    (run create_calculator_screen
      [['1'], ['5'], ['0'], ['0'], ['0'], ['0'], ['*'],
       ['1'], ['0'], ['0'], ['0'], ['0'], ['0'], ['=']]).calc_buffer
      = ['1', '.', '5', 'e', '+', '1'] ∧
    (run create_calculator_screen
      [['1'], ['5'], ['0'], ['0'], ['0'], ['0'], ['*'],
       ['1'], ['0'], ['0'], ['0'], ['0'], ['0'], ['=']]).calc_stored.intValue
      = some 15000000000 := by
  decide

/-! ## Typing digits -/

theorem run_append_singleton (s : Calc) (keys : List (List Char)) (k : List Char) :
    run s (keys ++ [k]) = calc_btn_event_handler (run s keys) k := by
  simp [run, List.foldl_append]

theorem typedText_append_singleton (ks : List Char) (k : Char) :
    typedText (ks ++ [k]) =
      if typedText ks = ['0'] ∧ k ≠ '.' then [k] else typedText ks ++ [k] := by
  simp [typedText, List.foldl_append]

theorem typedText_length (ks : List Char) : (typedText ks).length ≤ ks.length := by
  induction ks using List.reverseRecOn with
  | nil => simp [typedText]
  | append_singleton ks k ih =>
    rw [typedText_append_singleton]
    split_ifs
    · simp
    · simpa using ih

theorem typedText_mem (ks : List Char) : ∀ c ∈ typedText ks, c ∈ ks := by
  induction ks using List.reverseRecOn with
  | nil => simp [typedText]
  | append_singleton ks k ih =>
    intro c hc
    rw [typedText_append_singleton] at hc
    split_ifs at hc
    · rw [List.mem_singleton] at hc
      simp [hc]
    · rcases List.mem_append.1 hc with h | h
      · exact List.mem_append_left _ (ih c h)
      · exact List.mem_append_right _ h

/-- After a non-empty run of digit and point keys within the limits the new-input flag is
clear and the buffer is the text the spec describes. -/
theorem typed_run_spec (keys : List Char) :
    (∀ c ∈ keys, c ∈ numKeys) → keys.length ≤ 20 → keys.count '.' ≤ 1 →
    keys ≠ [] →
      (run create_calculator_screen (keys.map fun c => [c])).calc_new_input = false ∧
      (run create_calculator_screen (keys.map fun c => [c])).calc_buffer = typedText keys := by
  induction keys using List.reverseRecOn with
  | nil => intro _ _ _ h; exact absurd rfl h
  | append_singleton ks k ih =>
    intro hk hlen hdot _
    have hkn : k ∈ numKeys := hk k (by simp)
    rw [List.map_append, List.map_singleton, run_append_singleton, handler_numeric _ k hkn,
      typedText_append_singleton]
    refine ⟨rfl, ?_⟩
    by_cases hnil : ks = []
    · subst hnil
      simp [run, create_calculator_screen, typeChar, typedText]
    · have hlen' : ks.length + 1 ≤ 20 := by simpa using hlen
      have hdot' : ks.count '.' + [k].count '.' ≤ 1 := by
        rw [← List.count_append]; exact hdot
      obtain ⟨hni, hbuf⟩ := ih (fun c hc => hk c (List.mem_append_left _ hc)) (by omega)
        (by omega) hnil
      have hl := typedText_length ks
      have hdotk : k = '.' → '.' ∉ typedText ks := by
        intro hk' hmem
        have h1 : 0 < ks.count '.' := List.count_pos_iff.2 (typedText_mem ks _ hmem)
        have h2 : [k].count '.' = 1 := by simp [hk']
        omega
      simp only [hni, hbuf, typeChar, Bool.false_eq_true, if_false]
      rw [if_pos (by omega)]
      split_ifs with h1 h2 h3
      · rfl
      · exact absurd h3 (hdotk h2)
      · rfl
      · rfl

/-- C1: from screen entry, a non-empty sequence of at most 20 digit and `.` keypresses with
at most one `.` leaves in the buffer the concatenation of the keypresses, except that a
buffer that is exactly `0` is replaced by a following digit instead of being extended. -/
theorem C1_typed_keys_fill_buffer (keys : List Char) (hne : keys ≠ [])
    (hk : ∀ c ∈ keys, c ∈ numKeys) (hlen : keys.length ≤ 20) (hdot : keys.count '.' ≤ 1) :
    (run create_calculator_screen (keys.map fun c => [c])).calc_buffer = typedText keys :=
  (typed_run_spec keys hk hlen hdot hne).2

/-- C1 at the keys `0 0 . 5 0 7`: the buffer is `0.507`. -/
theorem C1_typed_keys_witness :
    (run create_calculator_screen [['0'], ['0'], ['.'], ['5'], ['0'], ['7']]).calc_buffer
      = ['0', '.', '5', '0', '7'] :=
  C1_typed_keys_fill_buffer ['0', '0', '.', '5', '0', '7'] (by decide) (by decide) (by decide)
    (by decide)

/-! ## The buffer invariants -/

theorem shape_ne_nil {b : List Char} (h : Shape b) : b ≠ [] := by
  rcases h with h | h | h
  · exact h.1
  · exact h.1
  · exact h.1

/-- C6: in every state reachable from screen entry by clicks on the calculator buttons the
buffer has at least one character; and backspace on a buffer of exactly one character sets
the buffer to `0`, the current value to 0 and the new-input flag. -/
theorem C6_buffer_never_empty :
    (∀ s : Calc, Reachable s → 1 ≤ s.calc_buffer.length) ∧
    (∀ s : Calc, s.calc_buffer.length = 1 →
      (calc_btn_event_handler s ['←']).calc_buffer = ['0'] ∧
      (calc_btn_event_handler s ['←']).calc_current = F64.ofNat 0 ∧
      (calc_btn_event_handler s ['←']).calc_new_input = true) := by
  refine ⟨?_, ?_⟩
  · intro s hs
    exact List.length_pos.2 (shape_ne_nil (inv_of_reachable hs).shape)
  · intro s hl
    rw [handler_backspace, if_neg (by omega)]
    exact ⟨rfl, rfl, rfl⟩

/-- C6 at the state the keys `7 ←` and a further `←` reach. -/
theorem C6_buffer_never_empty_witness :
    1 ≤ (run create_calculator_screen [['7'], ['←'], ['←']]).calc_buffer.length ∧
    (calc_btn_event_handler (run create_calculator_screen [['7']]) ['←']).calc_buffer = ['0'] :=
  ⟨C6_buffer_never_empty.1 _ (reachable_run Reachable.entry _ (by decide)),
   (C6_buffer_never_empty.2 (run create_calculator_screen [['7']]) (by decide)).1⟩

/-- C7, refuted as stated: the keys `/ = ←` are clicks on calculator buttons and leave the
buffer `Erro`, which is no valid numeric literal, not the literal `Error` and no literal
being typed. -/
theorem C7_backspace_over_error :
    Reachable (run create_calculator_screen [['/'], ['='], ['←']]) ∧
    (run create_calculator_screen [['/'], ['='], ['←']]).calc_buffer = ['E', 'r', 'r', 'o'] ∧
    specDisplayInvariant (run create_calculator_screen [['/'], ['='], ['←']]).calc_buffer
      = false :=
  ⟨reachable_run Reachable.entry _ (by decide), by decide, by decide⟩

/-- C7, amended: in every state reachable from screen entry by clicks on the calculator
buttons the buffer is a literal being typed (1 to 20 digit and point characters, at most
one point), or a non-empty prefix of the literal `Error`, or a non-empty prefix of the text
that the evaluation in some reachable state wrote for its result (the sum, difference,
product or quotient of the registers of that state); that text is a prefix of the `%.10g`
text of the result, which is a syntactically valid numeric literal. -/
theorem C7_buffer_shapes (s : Calc) (hs : Reachable s) :
    Typed s.calc_buffer ∨
    (s.calc_buffer ≠ [] ∧ s.calc_buffer <+: errorText) ∨
    (s.calc_buffer ≠ [] ∧ ∃ (s0 : Calc) (v : F64), Wrote s0 v ∧
      s.calc_buffer <+: resultText v ∧ resultText v <+: fmtG10 v ∧
      numericLiteral (fmtG10 v) = true) := by
  rcases (inv_of_reachable hs).shape with h | h | ⟨hne, s0, v, hw, hv⟩
  · exact Or.inl h
  · exact Or.inr (Or.inl h)
  · exact Or.inr (Or.inr ⟨hne, s0, v, hw, hv, resultText_isPrefix v, numericLiteral_fmtG10 v⟩)

/-- The amended C7 at the state the keys `/ = ←` reach, with buffer `Erro`, and at the state
the clicks `nanKeys` reach, where the evaluation of infinity minus infinity has left `-nan`
in the buffer. -/
theorem C7_buffer_shapes_witness :
    (run create_calculator_screen [['/'], ['='], ['←']]).calc_buffer = ['E', 'r', 'r', 'o'] ∧
    (Typed (run create_calculator_screen [['/'], ['='], ['←']]).calc_buffer ∨
     ((run create_calculator_screen [['/'], ['='], ['←']]).calc_buffer ≠ [] ∧
       (run create_calculator_screen [['/'], ['='], ['←']]).calc_buffer <+: errorText) ∨
     ((run create_calculator_screen [['/'], ['='], ['←']]).calc_buffer ≠ [] ∧
       ∃ (s0 : Calc) (v : F64), Wrote s0 v ∧
         (run create_calculator_screen [['/'], ['='], ['←']]).calc_buffer <+: resultText v ∧
         resultText v <+: fmtG10 v ∧ numericLiteral (fmtG10 v) = true)) ∧
    (run create_calculator_screen nanKeys).calc_buffer = ['-', 'n', 'a', 'n'] ∧
    (Typed (run create_calculator_screen nanKeys).calc_buffer ∨
     ((run create_calculator_screen nanKeys).calc_buffer ≠ [] ∧
       (run create_calculator_screen nanKeys).calc_buffer <+: errorText) ∨
     ((run create_calculator_screen nanKeys).calc_buffer ≠ [] ∧
       ∃ (s0 : Calc) (v : F64), Wrote s0 v ∧
         (run create_calculator_screen nanKeys).calc_buffer <+: resultText v ∧
         resultText v <+: fmtG10 v ∧ numericLiteral (fmtG10 v) = true)) :=
  ⟨by decide,
   C7_buffer_shapes _ (reachable_run Reachable.entry _ (by decide)),
   by decide!,
   C7_buffer_shapes _ (reachable_run Reachable.entry _ (by decide))⟩

/-- C8: in a reachable state in which a number is being typed, `.` with a point already in
the buffer, and any digit or `.` with 20 characters already in the buffer, leave the whole
state unchanged; so after a digit or `.` key the buffer has at most 20 characters and at
most one point. After the keys `2 . 5 .` and after `2 . 5 . 0` the current value
is 2.5, that is `5 * 2 ^ (-1)`. -/
theorem C8_invalid_keys_are_ignored :
    (∀ s : Calc, Reachable s → s.calc_new_input = false →
      ('.' ∈ s.calc_buffer → calc_btn_event_handler s ['.'] = s) ∧
      (s.calc_buffer.length = 20 → ∀ c ∈ numKeys, calc_btn_event_handler s [c] = s)) ∧
    (∀ s : Calc, Reachable s → ∀ c ∈ numKeys,
      (calc_btn_event_handler s [c]).calc_buffer.length ≤ 20 ∧
      (calc_btn_event_handler s [c]).calc_buffer.count '.' ≤ 1) ∧
    (run create_calculator_screen [['2'], ['.'], ['5'], ['.']]).calc_buffer
      = ['2', '.', '5'] ∧
    (run create_calculator_screen [['2'], ['.'], ['5'], ['.']]).calc_current
      = F64.fin false 5 (-1) ∧
    (run create_calculator_screen [['2'], ['.'], ['5'], ['.'], ['0']]).calc_current
      = F64.fin false 5 (-1) := by
  refine ⟨?_, ?_, by decide, by decide, by decide⟩
  · intro s hs hni
    have hinv := inv_of_reachable hs
    have hcur := (hinv.typed hni).1
    have hdisp := hinv.display
    refine ⟨?_, ?_⟩
    · intro hdot
      have ht : typeChar s.calc_new_input s.calc_buffer '.' = s.calc_buffer := by
        simp [typeChar, hni, hdot]
      rw [handler_numeric s '.' (by decide), ht, ← hcur, ← hni, ← hdisp]
      cases s
      simp_all
    · intro hlen c hc
      have ht : typeChar s.calc_new_input s.calc_buffer c = s.calc_buffer := by
        simp [typeChar, hni, hlen]
      rw [handler_numeric s c hc, ht, ← hcur, ← hni, ← hdisp]
      cases s
      simp_all
  · intro s hs c hc
    have hinv := inv_step hs (inv_of_reachable hs) (k := [c]) (by
      simp only [numKeys, digitKeys, List.cons_append, List.nil_append, List.mem_cons,
        List.mem_singleton, List.not_mem_nil, or_false] at hc
      rcases hc with rfl | rfl | rfl | rfl | rfl | rfl | rfl | rfl | rfl | rfl | rfl <;>
        decide)
    have hni : (calc_btn_event_handler s [c]).calc_new_input = false := by
      rw [handler_numeric s c hc]
    exact ⟨(hinv.typed hni).2.2.2.2, (hinv.typed hni).2.2.2.1⟩

/-- The general part of C8 at the state the keys `2 . 5` reach, where a second `.` changes
nothing, and at the state twenty keys `1` reach, where a further `2` changes nothing. -/
theorem C8_invalid_keys_witness :
    calc_btn_event_handler (run create_calculator_screen [['2'], ['.'], ['5']]) ['.']
      = run create_calculator_screen [['2'], ['.'], ['5']] ∧
    calc_btn_event_handler (run create_calculator_screen (List.replicate 20 ['1'])) ['2']
      = run create_calculator_screen (List.replicate 20 ['1']) :=
  ⟨(C8_invalid_keys_are_ignored.1 (run create_calculator_screen [['2'], ['.'], ['5']])
      (reachable_run Reachable.entry _ (by decide)) (by decide)).1 (by decide),
   (C8_invalid_keys_are_ignored.1 (run create_calculator_screen (List.replicate 20 ['1']))
      (reachable_run Reachable.entry _ (by decide)) (by decide)).2 (by decide) '2'
      (by decide)⟩

end CydOS
